import Mathlib

/-!
Verification development for a small fine-grained reactivity engine
(`src/vue.js`, current snapshot: `track` / `trigger` / `triggerDeps`,
the `reactive` proxy wrapper with its array-method interception,
`RefImpl`, `_effect`, `computed` and `watch`).

The JavaScript module is shallowly embedded as a fueled state machine:

* JS values that occur in the engine's scenarios are `Val` (undefined,
  null, integers, and object references compared by identity, which is
  exactly what `===` does on them; strings/floats are not needed by the
  engine's own data).
* The mutable world is `St`: an object heap, the ref cells, the global
  `targetMap` dependency registry, the effect runners, the watcher
  bookkeeping of `watch`, the module-global `currentEffect`, and an
  observation log recording each time an effect runner's body actually
  executes.
* Effect bodies are user programs: a tiny command language (`Cmd`/`Expr`)
  whose interpretation performs exactly the tracked reads, proxied writes
  and intercepted array-method calls of the source.  The interpreter is
  fueled (`Nat` fuel); exhausting fuel models non-termination / stack
  overflow and is reported as `Outcome.outOfFuel`.
* Property keys are `PKey`: canonical non-negative integer index keys
  (`idx i`, the string "i"), the `length` pseudo-key, and other plain
  string keys.  On this key universe the source's
  `isNumericKey = !isNaN(Number(key))` holds exactly for `idx` keys.
-/

/-- JS values occurring in the engine (identity equality = `===`). -/
inductive Val where
  | undefined : Val
  | null : Val
  | num (n : Int) : Val
  | obj (o : Nat) : Val
deriving DecidableEq, Repr

/-- Property keys: canonical integer indices, the `length` pseudo-key,
and other string keys. -/
inductive PKey where
  | idx (i : Nat) : PKey
  | len : PKey
  | str (s : String) : PKey
deriving DecidableEq, Repr

/-- `isNumericKey` from `utils.js` (`!isNaN(Number(val))`), on the
canonical key universe: true exactly for integer index keys. -/
def isNumericKey : PKey → Bool
  | .idx _ => true
  | _ => false

/-- `Number(key)` for a numeric key, as used by the partial-index
comparisons (`Number(propKey) >= startIndex`). -/
def keyNum : PKey → Int
  | .idx i => (i : Int)
  | _ => 0

/-- Heap objects: plain objects, arrays, or `Proxy` views created by
`reactive` (a proxy stores its raw target; `isReactive` probes for the
`__v_isReactive` key, which the get trap answers for proxies only). -/
inductive ObjKind where
  | plain (fields : List (PKey × Val)) : ObjKind
  | arr (elems : List Val) : ObjKind
  | proxy (target : Nat) : ObjKind
deriving DecidableEq, Repr

abbrev Heap := List ObjKind

/-- `isObject` from `utils.js`: non-null values of type "object". -/
def isObjVal : Val → Bool
  | .obj _ => true
  | _ => false

/-- Association-list lookup (JS `Map.get`, insertion-ordered). -/
def aget {α β : Type} [DecidableEq α] : List (α × β) → α → Option β
  | [], _ => none
  | (a, b) :: rest, x => if a = x then some b else aget rest x

/-- Association-list update; appends when absent (JS `Map.set`). -/
def aset {α β : Type} [DecidableEq α] : List (α × β) → α → β → List (α × β)
  | [], x, y => [(x, y)]
  | (a, b) :: rest, x, y =>
      if a = x then (x, y) :: rest else (a, b) :: aset rest x y

/-- JS `Set.add` on an insertion-ordered duplicate-free list. -/
def depAdd (dep : List Nat) (e : Nat) : List Nat :=
  if dep.contains e then dep else dep ++ [e]

/-- Add a subscriber under a key in one target's per-key map. -/
def kmAdd (m : List (PKey × List Nat)) (key : PKey) (e : Nat) :
    List (PKey × List Nat) :=
  match aget m key with
  | none => m ++ [(key, [e])]
  | some dep => aset m key (depAdd dep e)

/-- Add a subscriber into the global `targetMap` registry
(`track`'s map/set creation, insertion-ordered like JS Map/Set). -/
def dmAdd (tm : List (Nat × List (PKey × List Nat))) (t : Nat) (key : PKey)
    (e : Nat) : List (Nat × List (PKey × List Nat)) :=
  match aget tm t with
  | none => tm ++ [(t, [(key, [e])])]
  | some m => aset tm t (kmAdd m key e)

/-- Raw (un-intercepted) property read `target[key]` on a heap object.
Array reads past the end, string keys on arrays, and missing plain
fields yield `undefined`, as in JS. -/
def rawGet (k : ObjKind) (key : PKey) : Val :=
  match k, key with
  | .arr es, .idx i => (es.getD i .undefined)
  | .arr es, .len => .num es.length
  | .arr _, .str _ => .undefined
  | .plain fs, _ => (aget fs key).getD .undefined
  | .proxy _, _ => .undefined

/-- Raw property write `target[key] = v`.  Writing an array at an index
past the end grows it with holes (read back as `undefined`) so that the
new length is `i + 1`; writing `length` truncates or extends. -/
def rawSet (k : ObjKind) (key : PKey) (v : Val) : ObjKind :=
  match k, key with
  | .arr es, .idx i =>
      if i < es.length then .arr (es.set i v)
      else .arr (es ++ List.replicate (i - es.length) .undefined ++ [v])
  | .arr es, .len =>
      match v with
      | .num m =>
          if m < 0 then .arr es
          else if m.toNat ≤ es.length then .arr (es.take m.toNat)
          else .arr (es ++ List.replicate (m.toNat - es.length) .undefined)
      | _ => .arr es
  | .arr es, .str _ => .arr es
  | .plain fs, _ => .plain (aset fs key v)
  | .proxy t, _ => .proxy t

/-- One ref cell (`RefImpl`): the raw value, the possibly-wrapped stored
value, and the cell-local subscriber set `dep`. -/
structure RefSt where
  rawValue : Val
  value : Val
  dep : List Nat
deriving DecidableEq, Repr

/-- Watcher bookkeeping of one `watch` call (`oldValue`, `isFirstRun`,
the `immediate` option, and the observed callback invocations,
each recorded as `(newValue, oldValue)`). -/
structure WSt where
  oldValue : Val
  isFirstRun : Bool
  immediate : Bool
  calls : List (Val × Val)
deriving DecidableEq, Repr

/-- An effect-body program: expressions are tracked reads. -/
inductive Expr where
  | lit (v : Val) : Expr
  | refGet (r : Nat) : Expr
  | idxGet (a : Expr) (i : Nat) : Expr
  | lenGet (a : Expr) : Expr
  | propGet (a : Expr) (k : String) : Expr
deriving DecidableEq, Repr

/-- Commands an effect body (or top-level user code) can perform. -/
inductive Cmd where
  | eread (e : Expr) : Cmd
  | refSet (r : Nat) (e : Expr) : Cmd
  | propSet (a : Expr) (k : PKey) (e : Expr) : Cmd
  | push (a : Expr) (e : Expr) : Cmd
  | pop (a : Expr) : Cmd
  | splice (a : Expr) (start : Int) (deleteCount : Nat) : Cmd
  | invoke (e : Nat) : Cmd
  | throwErr : Cmd
deriving DecidableEq, Repr

/-- The body held by an effect runner: either a command program, or the
body `_effect` receives from `watch` (getter over a source cell plus
callback bookkeeping in watcher slot `w`). -/
inductive Body where
  | cmds (cs : List Cmd) : Body
  | watcher (src : Nat) (w : Nat) : Body
deriving DecidableEq, Repr

/-- One effect runner (`runEffect` closure): `__active` flag and body. -/
structure Eff where
  active : Bool
  body : Body
deriving DecidableEq, Repr

/-- The whole mutable world of the module. `log` records the id of every
effect whose body actually starts executing (observation only). -/
structure St where
  heap : Heap
  refs : List RefSt
  targetMap : List (Nat × List (PKey × List Nat))
  effects : List Eff
  watchers : List WSt
  currentEffect : Option Nat
  log : List Nat
deriving DecidableEq, Repr

/-- How an interpreted step finished: normally, with a JS exception, or
with the fuel (call-stack / step budget) exhausted. -/
inductive Outcome where
  | ok : Outcome
  | err : Outcome
  | outOfFuel : Outcome
deriving DecidableEq, Repr

mutual

/-- `reactive(obj)` from the source, on the heap: non-objects and
already-reactive values (proxies answer the `__v_isReactive` probe) are
returned unchanged; otherwise object-valued own properties are eagerly
wrapped in place and a fresh `Proxy` over the (mutated) raw object is
allocated at the end of the heap.  Fuel models the recursion stack;
`none` is a stack overflow. -/
def reactiveF : Nat → Val → Heap → Option (Val × Heap)
  | 0, _, _ => none
  | Nat.succ n, v, h =>
    match v with
    | .obj o =>
      match h.get? o with
      | some (.proxy _) => some (v, h)
      | some (.plain fs) =>
        match wrapFields n fs h with
        | none => none
        | some (fs2, h1) =>
          let h2 := h1.set o (.plain fs2)
          some (.obj h2.length, h2 ++ [.proxy o])
      | some (.arr es) =>
        match wrapVals n es h with
        | none => none
        | some (es2, h1) =>
          let h2 := h1.set o (.arr es2)
          some (.obj h2.length, h2 ++ [.proxy o])
      | none => some (v, h)
    | _ => some (v, h)

/-- The eager child-wrapping loop of `reactive` over array elements
(`for (const key of Object.keys(obj)) if (isObject(obj[key])) ...`). -/
def wrapVals : Nat → List Val → Heap → Option (List Val × Heap)
  | _, [], h => some ([], h)
  | 0, _ :: _, _ => none
  | Nat.succ n, v :: vs, h =>
    match (if isObjVal v then reactiveF n v h else some (v, h)) with
    | none => none
    | some (v2, h1) =>
      match wrapVals n vs h1 with
      | none => none
      | some (vs2, h2) => some (v2 :: vs2, h2)

/-- The eager child-wrapping loop of `reactive` over plain-object own
properties. -/
def wrapFields : Nat → List (PKey × Val) → Heap →
    Option (List (PKey × Val) × Heap)
  | _, [], h => some ([], h)
  | 0, _ :: _, _ => none
  | Nat.succ n, (k, v) :: fs, h =>
    match (if isObjVal v then reactiveF n v h else some (v, h)) with
    | none => none
    | some (v2, h1) =>
      match wrapFields n fs h1 with
      | none => none
      | some (fs2, h2) => some ((k, v2) :: fs2, h2)

end

/-- `isObject(value) ? reactive(value) : value`, the wrapping applied by
both the proxy set trap and the ref setter/constructor. -/
def wrapValF (n : Nat) (v : Val) (h : Heap) : Option (Val × Heap) :=
  if isObjVal v then reactiveF n v h else some (v, h)

/-- The `currentEffect.__active === false` part of the tracking guard
(an undefined `__active` compares unequal to `false`, hence tracks). -/
def effInactive (s : St) (e : Nat) : Bool :=
  match s.effects.get? e with
  | some eff => !eff.active
  | none => false

/-- `track(target, key)`: no-op unless a current effect exists and is
active; otherwise registers it in `targetMap` (map/set creation and
insertion order as in the source). -/
def trackF (t : Nat) (key : PKey) (s : St) : St :=
  match s.currentEffect with
  | none => s
  | some e =>
    if effInactive s e then s
    else { s with targetMap := dmAdd s.targetMap t key e }

/-- `RefImpl`'s `get value`: registers the active current effect in the
cell's own `dep` set and returns the stored (wrapped) value. -/
def refGetF (r : Nat) (s : St) : Val × St :=
  match s.refs.get? r with
  | none => (.undefined, s)
  | some rs =>
    let s1 :=
      match s.currentEffect with
      | none => s
      | some e =>
        if effInactive s e then s
        else if rs.dep.contains e then s
        else { s with refs := s.refs.set r { rs with dep := rs.dep ++ [e] } }
    (rs.value, s1)

/-- The proxy `get` trap on a data key (`Reflect.get` then `track`);
reading through a non-proxy object is an ordinary untracked read. -/
def proxyGetF (pv : Val) (key : PKey) (s : St) : Val × St :=
  match pv with
  | .obj p =>
    match s.heap.get? p with
    | some (.proxy t) =>
      match s.heap.get? t with
      | some tk => (rawGet tk key, trackF t key s)
      | none => (.undefined, s)
    | some tk => (rawGet tk key, s)
    | none => (.undefined, s)
  | _ => (.undefined, s)

/-- Evaluate an effect-body expression (performs the tracked reads). -/
def evalE : Expr → St → Val × St
  | .lit v, s => (v, s)
  | .refGet r, s => refGetF r s
  | .idxGet a i, s =>
      let (pv, s1) := evalE a s
      proxyGetF pv (.idx i) s1
  | .lenGet a, s =>
      let (pv, s1) := evalE a s
      proxyGetF pv .len s1
  | .propGet a k, s =>
      let (pv, s1) := evalE a s
      proxyGetF pv (.str k) s1

/-- Mark an effect runner inactive / active again (`__active` flag). -/
def setEffActive (e : Nat) (b : Bool) (s : St) : St :=
  match s.effects.get? e with
  | none => s
  | some eff => { s with effects := s.effects.set e { eff with active := b } }

/-- The intercepted native mutation itself (`Reflect.apply` on the raw
target): `push`, `pop`, or `splice(start, deleteCount)` with JS index
normalization. -/
def applyNative : List Val → (Option Val) ⊕ (Int × Nat) → List Val
  | es, .inl (some v) => es ++ [v]
  | es, .inl none => es.dropLast
  | es, .inr (st, cnt) =>
      let len := es.length
      let a : Nat := if st < 0 then ((len : Int) + st).toNat else min st.toNat len
      es.take a ++ es.drop (a + cnt)

/-- Current `target.length` of a raw array on the heap. -/
def arrLen (s : St) (t : Nat) : Nat :=
  match s.heap.get? t with
  | some (.arr es) => es.length
  | _ => 0

mutual

/-- The `runEffect` closure of `_effect`: a no-op when `__active` is
false; otherwise sets `currentEffect` to itself, runs the body, and in a
`finally` sets `currentEffect` back to `null` on every exit path.  The
body start is appended to the observation `log`. -/
def runEffectF : Nat → Nat → St → St × Outcome
  | n, e, s =>
    match s.effects.get? e with
    | none => (s, .ok)
    | some eff =>
      if eff.active then
        match n with
        | 0 => (s, .outOfFuel)
        | Nat.succ m =>
          let s1 := { s with currentEffect := some e, log := s.log ++ [e] }
          let res :=
            match eff.body with
            | .cmds cs => runCmdsF m cs s1
            | .watcher src w => (watchBodyF src w s1, Outcome.ok)
          ({ res.1 with currentEffect := none }, res.2)
      else (s, .ok)

/-- Run a command sequence; a thrown error or fuel exhaustion aborts the
rest, as a JS exception would. -/
def runCmdsF : Nat → List Cmd → St → St × Outcome
  | _, [], s => (s, .ok)
  | 0, _ :: _, s => (s, .outOfFuel)
  | Nat.succ n, c :: cs, s =>
    match runCmdF n c s with
    | (s1, .ok) => runCmdsF n cs s1
    | r => r

/-- Run one command. -/
def runCmdF : Nat → Cmd → St → St × Outcome
  | 0, _, s => (s, .outOfFuel)
  | Nat.succ n, c, s =>
    match c with
    | .eread e =>
      let (_, s1) := evalE e s
      (s1, .ok)
    | .refSet r e =>
      let (v, s1) := evalE e s
      refSetF n r v s1
    | .propSet a k e =>
      let (pv, s1) := evalE a s
      let (v, s2) := evalE e s1
      handlerSetF n pv k v s2
    | .push a e =>
      let (pv, s1) := evalE a s
      let (v, s2) := evalE e s1
      arrayMethodF n pv (.inl (some v)) s2
    | .pop a =>
      let (pv, s1) := evalE a s
      arrayMethodF n pv (.inl none) s1
    | .splice a st cnt =>
      let (pv, s1) := evalE a s
      arrayMethodF n pv (.inr (st, cnt)) s1
    | .invoke e => runEffectF n e s
    | .throwErr => (s, .err)

/-- `RefImpl`'s `set value`: identity short-circuit against the stored
raw value; otherwise store raw, store the wrapped value, and notify the
cell's own dep set via `triggerDeps`. -/
def refSetF : Nat → Nat → Val → St → St × Outcome
  | n, r, v, s =>
    match s.refs.get? r with
    | none => (s, .ok)
    | some rs =>
      if rs.rawValue = v then (s, .ok)
      else
        match n with
        | 0 => (s, .outOfFuel)
        | Nat.succ m =>
          match wrapValF m v s.heap with
          | none =>
            ({ s with refs := s.refs.set r { rs with rawValue := v } }, .err)
          | some (v2, h2) =>
            let s1 := { s with heap := h2,
                               refs := s.refs.set r
                                 { rs with rawValue := v, value := v2 } }
            triggerDepsF m rs.dep s1

/-- The proxy `set` trap: identity short-circuit against the current raw
value, then store the (possibly wrapped) value, `trigger(target, key)`,
and - for an array, a numeric key, and `Number(key) >= target.length`
read *after* the store - additionally `trigger(target, 'length')`. -/
def handlerSetF : Nat → Val → PKey → Val → St → St × Outcome
  | n, pv, key, v, s =>
    match pv with
    | .obj p =>
      match s.heap.get? p with
      | some (.proxy t) =>
        match s.heap.get? t with
        | some tk =>
          if rawGet tk key = v then (s, .ok)
          else
            match n with
            | 0 => (s, .outOfFuel)
            | Nat.succ m =>
              match wrapValF m v s.heap with
              | none => (s, .err)
              | some (v2, h2) =>
                let tk2 := (h2.get? t).getD tk
                let s1 := { s with heap := h2.set t (rawSet tk2 key v2) }
                match triggerF m t key s1 with
                | (s2, .ok) =>
                  let isArr := match tk with | .arr _ => true | _ => false
                  if isArr && isNumericKey key
                      && decide (keyNum key ≥ (arrLen s2 t : Int)) then
                    triggerF m t .len s2
                  else (s2, .ok)
                | r => r
        | none => (s, .ok)
      | _ => (s, .ok)
    | _ => (s, .ok)

/-- `trigger(target, key)`: look up the subscriber set in `targetMap`
and hand it to `triggerDeps` (absent map or key is a no-op). -/
def triggerF : Nat → Nat → PKey → St → St × Outcome
  | n, t, key, s =>
    match aget s.targetMap t with
    | none => (s, .ok)
    | some m0 =>
      match aget m0 key with
      | none => (s, .ok)
      | some dep =>
        match n with
        | 0 => (s, .outOfFuel)
        | Nat.succ m => triggerDepsF m dep s

/-- `triggerDeps(dep)`: iterate a snapshot of the set, invoking each
effect that is not identical to `currentEffect` as read at that step. -/
def triggerDepsF : Nat → List Nat → St → St × Outcome
  | _, [], s => (s, .ok)
  | 0, _ :: _, s => (s, .outOfFuel)
  | Nat.succ n, e :: es, s =>
    if s.currentEffect = some e then triggerDepsF n es s
    else
      match runEffectF n e s with
      | (s1, .ok) => triggerDepsF n es s1
      | r => r

/-- The wrapper returned by the proxy `get` trap for an intercepted
array method: perform the native mutation on the raw target, then - if
the target has a `targetMap` entry - notify `length` subscribers (all
three modeled methods are length methods), then notify numeric-index
subscribers whose key is `>= startIndex`, where `startIndex` is
`target.length - 1` for `push`, `target.length` for `pop` (both read
*after* the mutation) and the explicit start argument for `splice`,
de-duplicating against the already-notified set. -/
def arrayMethodF : Nat → Val → (Option Val) ⊕ (Int × Nat) → St → St × Outcome
  | n, pv, call, s =>
    match pv with
    | .obj p =>
      match s.heap.get? p with
      | some (.proxy t) =>
        match s.heap.get? t with
        | some (.arr es) =>
          let s1 := { s with heap := s.heap.set t (.arr (applyNative es call)) }
          match aget s1.targetMap t with
          | none => (s1, .ok)
          | some dm0 =>
            match n with
            | 0 => (s1, .outOfFuel)
            | Nat.succ m =>
              let lenDep := (aget dm0 PKey.len).getD []
              match notifyAllF m lenDep [] s1 with
              | (tr, s2, .ok) =>
                let startIndex : Int :=
                  match call with
                  | .inl (some _) => (arrLen s2 t : Int) - 1
                  | .inl none => (arrLen s2 t : Int)
                  | .inr (st, _) => st
                let numDeps := ((aget s2.targetMap t).getD []).filter
                  (fun kv => isNumericKey kv.1)
                match notifyKeysF m numDeps startIndex tr s2 with
                | (_, s3, out) => (s3, out)
              | (_, s2, out) => (s2, out)
        | _ => (s, .ok)
      | _ => (s, .ok)
    | _ => (s, .ok)

/-- The `length`-subscriber loop of the wrapper: add each subscriber to
the de-duplication set and invoke it unconditionally (no comparison with
`currentEffect`). -/
def notifyAllF : Nat → List Nat → List Nat → St → List Nat × St × Outcome
  | _, [], tr, s => (tr, s, .ok)
  | 0, _ :: _, tr, s => (tr, s, .outOfFuel)
  | Nat.succ n, e :: es, tr, s =>
    let tr1 := depAdd tr e
    match runEffectF n e s with
    | (s1, .ok) => notifyAllF n es tr1 s1
    | (s1, out) => (tr1, s1, out)

/-- The numeric-key loop of the wrapper: for each numeric-key entry with
`Number(propKey) >= startIndex`, invoke its subscribers that are not yet
in the de-duplication set (again without a `currentEffect` check). -/
def notifyKeysF : Nat → List (PKey × List Nat) → Int → List Nat → St →
    List Nat × St × Outcome
  | _, [], _, tr, s => (tr, s, .ok)
  | 0, _ :: _, _, tr, s => (tr, s, .outOfFuel)
  | Nat.succ n, (k, dep) :: rest, start, tr, s =>
    if keyNum k ≥ start then
      match notifyDedupF n dep tr s with
      | (tr1, s1, .ok) => notifyKeysF n rest start tr1 s1
      | r => r
    else notifyKeysF n rest start tr s

/-- One subscriber set inside the numeric-key loop: skip members already
notified in this wrapper call, invoke the rest. -/
def notifyDedupF : Nat → List Nat → List Nat → St → List Nat × St × Outcome
  | _, [], tr, s => (tr, s, .ok)
  | 0, _ :: _, tr, s => (tr, s, .outOfFuel)
  | Nat.succ n, e :: es, tr, s =>
    if tr.contains e then notifyDedupF n es tr s
    else
      let tr1 := tr ++ [e]
      match runEffectF n e s with
      | (s1, .ok) => notifyDedupF n es tr1 s1
      | (s1, out) => (tr1, s1, out)

/-- The body `_effect` receives from `watch`: evaluate the getter (a
tracked read of the source cell), invoke the callback with
`(newValue, oldValue)` unless this is the non-immediate first run, then
roll `oldValue` and clear `isFirstRun`.  Callback invocations are
recorded in the watcher's `calls`. -/
def watchBodyF (src w : Nat) (s : St) : St :=
  let (v, s1) := refGetF src s
  match s1.watchers.get? w with
  | none => s1
  | some ws =>
    let calls2 := if !ws.isFirstRun || ws.immediate
      then ws.calls ++ [(v, ws.oldValue)] else ws.calls
    let ws2 := { ws with calls := calls2, oldValue := v, isFirstRun := false }
    { s1 with watchers := s1.watchers.set w ws2 }

end

/-- The `RefImpl` constructor reached through `ref(initialValue)`:
stores the raw value, stores the value wrapped via `reactive` when it is
an object, and starts with an empty dep set. -/
def mkRefF (n : Nat) (v : Val) (s : St) : Option (Nat × St) :=
  match wrapValF n v s.heap with
  | none => none
  | some (v2, h2) =>
      some (s.refs.length,
        { s with heap := h2, refs := s.refs ++ [⟨v, v2, []⟩] })

/-- `watch(source, callback, { immediate })` with a ref-cell source:
allocate the watcher bookkeeping (`oldValue` starts as `undefined`,
`isFirstRun` true), allocate the effect runner with the watch body, and
run it once immediately, as `_effect` does.  Returns the effect id. -/
def mkWatchF (n : Nat) (src : Nat) (immediate : Bool) (s : St) :
    Nat × (St × Outcome) :=
  let wid := s.watchers.length
  let eid := s.effects.length
  let s1 := { s with
    watchers := s.watchers ++ [⟨.undefined, true, immediate, []⟩],
    effects := s.effects ++ [⟨true, .watcher src wid⟩] }
  (eid, runEffectF n eid s1)

/-- The disposer closure returned by `watch`: saves `currentEffect`,
nulls it, sets the runner's `__active` to false, and restores
`currentEffect` in a `finally`. -/
def disposeF (e : Nat) (s : St) : St :=
  let originalEffect := s.currentEffect
  let s1 := { s with currentEffect := none }
  let s2 := setEffActive e false s1
  { s2 with currentEffect := originalEffect }

/-- An empty world. -/
def st0 : St := ⟨[], [], [], [], [], none, []⟩

/-! Concrete scenarios and the claims. -/

/-- A world captured mid-run of effect 0 (so `currentEffect = some 0`),
with an idle effect 1 about to be invoked from effect 0's body. -/
def c1MidSt : St :=
  ⟨[], [], [], [⟨true, .cmds [.invoke 1]⟩, ⟨true, .cmds []⟩], [], some 0, [0]⟩

/-- Outer effect 0 runs inner effect 1 and then reads ref 0; if the
tracker were restored after the inner run, the outer effect would end up
subscribed to ref 0. -/
def c1NestSt : St :=
  ⟨[], [⟨.num 7, .num 7, []⟩], [],
   [⟨true, .cmds [.invoke 1, .eread (.refGet 0)]⟩, ⟨true, .cmds []⟩],
   [], none, []⟩

/-- An effect whose body throws. -/
def c1ErrSt : St := ⟨[], [], [], [⟨true, .cmds [.throwErr]⟩], [], none, []⟩

/-- C1 counterexample: the claim says a run exits with `currentEffect`
equal to its value immediately before the run started.  Running effect 1
from the mid-run state of effect 0 (tracker `some 0`) exits with the
tracker `none`, not `some 0`: the `finally` assigns `null` instead of
restoring.  Consequently, in the full nested scenario the outer effect's
read of ref 0 after the inner run is not tracked (`dep` stays empty). -/
theorem c1_nested_run_counterexample :
    c1MidSt.currentEffect = some 0 ∧
    (runEffectF 5 1 c1MidSt).2 = .ok ∧
    (runEffectF 5 1 c1MidSt).1.currentEffect = none ∧
    (runEffectF 10 0 c1NestSt).2 = .ok ∧
    (runEffectF 10 0 c1NestSt).1.refs = [⟨.num 7, .num 7, []⟩] := by
  decide

/-- C1 (amended): every effect run exits with the Active-Computation
Tracker cleared to `null` or left untouched (inactive/missing runner,
exhausted stack); in particular a run that starts with no current
computation exits with the tracker equal to its prior value, on the
normal path and the error path alike.  A nested run therefore does not
restore the enclosing effect: it clears the tracker. -/
theorem c1_run_exit_clears_tracker (n e : Nat) (s : St) :
    (s.currentEffect = none → (runEffectF n e s).1.currentEffect = none) ∧
    ((runEffectF n e s).1.currentEffect = none ∨
      (runEffectF n e s).1.currentEffect = s.currentEffect) := by
  rw [runEffectF]
  cases hg : s.effects.get? e with
  | none => simp
  | some eff =>
    cases ha : eff.active with
    | false => simp [ha]
    | true =>
      cases n with
      | zero => simp [ha]
      | succ m => simp [ha]

/-- C1 witness: a top-level run whose body throws still exits with the
tracker cleared (equal to its prior value `none`). -/
theorem c1_run_exit_clears_tracker_w :
    (runEffectF 5 0 c1ErrSt).1.currentEffect = none :=
  (c1_run_exit_clears_tracker 5 0 c1ErrSt).1 rfl

/-- An effect that reads `arr.length` through the proxy and then calls
the intercepted `push` on the same reactive array in its own body. -/
def c2ArrSt : St :=
  ⟨[.arr [], .proxy 0], [], [],
   [⟨true, .cmds [.eread (.lenGet (.lit (.obj 1))),
                  .push (.lit (.obj 1)) (.lit (.num 1))]⟩], [], none, []⟩

/-- An effect that reads and writes the same ref in its own body. -/
def c2RefSt : St :=
  ⟨[], [⟨.num 0, .num 0, []⟩], [],
   [⟨true, .cmds [.eread (.refGet 0), .refSet 0 (.lit (.num 1))]⟩],
   [], none, []⟩

/-- An effect that reads and writes the same reactive-object property in
its own body. -/
def c2PropSt : St :=
  ⟨[.plain [(.str "x", .num 0)], .proxy 0], [], [],
   [⟨true, .cmds [.eread (.propGet (.lit (.obj 1)) "x"),
                  .propSet (.lit (.obj 1)) (.str "x") (.lit (.num 1))]⟩],
   [], none, []⟩

/-- A world mid-run of effect 0, used to exercise the `triggerDeps`
self-skip at a concrete input. -/
def c2CurSt : St := ⟨[], [], [], [⟨true, .cmds []⟩], [], some 0, []⟩

/-- C2 counterexample: the claim says every notification path skips the
subscriber identical to the currently active computation, including the
intercepted array mutation methods.  But the array wrapper invokes
subscribers with no `currentEffect` comparison: an effect that reads
`length` and then pushes re-enters its own body (it appears at least
twice in the execution log of a single top-level run) and recurses until
the stack is exhausted instead of terminating normally. -/
theorem c2_array_method_counterexample :
    (runEffectF 25 0 c2ArrSt).2 = .outOfFuel ∧
    2 ≤ (runEffectF 25 0 c2ArrSt).1.log.count 0 := by
  decide

/-- C2 (amended): notifications that go through `triggerDeps` (ref
writes and reactive property writes) skip a subscriber identical to the
computation current at the moment it is reached, so an effect whose body
reads and writes the same ref, or the same reactive property, terminates
normally after a single execution; the intercepted array mutation
methods perform no such skip (see the counterexample). -/
theorem c2_skip_via_triggerdeps_only :
    (∀ (n e : Nat) (s : St), s.currentEffect = some e →
        triggerDepsF (n + 1) [e] s = (s, .ok)) ∧
    ((runEffectF 10 0 c2RefSt).2 = .ok ∧
     (runEffectF 10 0 c2RefSt).1.log = [0] ∧
     (runEffectF 10 0 c2RefSt).1.refs = [⟨.num 1, .num 1, [0]⟩]) ∧
    ((runEffectF 10 0 c2PropSt).2 = .ok ∧
     (runEffectF 10 0 c2PropSt).1.log = [0]) := by
  refine ⟨?_, by decide, by decide⟩
  intro n e s hc
  rw [triggerDepsF]
  simp [hc, triggerDepsF]

/-- C2 witness: the self-skip of `triggerDeps` at a concrete input. -/
theorem c2_skip_via_triggerdeps_only_w :
    triggerDepsF 3 [0] c2CurSt = (c2CurSt, .ok) :=
  c2_skip_via_triggerdeps_only.1 2 0 c2CurSt rfl

/-- A reactive array `[1, 2]` with effect 0 subscribed to `length` and
effect 1 subscribed to index 2. -/
def c3St : St :=
  ⟨[.arr [.num 1, .num 2], .proxy 0], [],
   [(0, [(.len, [0]), (.idx 2, [1])])],
   [⟨true, .cmds []⟩, ⟨true, .cmds []⟩], [], none, []⟩

/-- C3 evaluated at the failing input: writing index 2 of the reactive
array `[1, 2]` (an index `>=` the pre-write length) stores the value and
triggers the index-2 subscriber (effect 1), but the `length` subscriber
(effect 0) is never invoked: the set trap compares `Number(key)` against
`target.length` read *after* the store, when the array has already grown
to length `key + 1`, so the length channel never fires for an integer
grow-write - contrary to the claim (and to the code's own comment). -/
theorem c3_growing_write_length_not_triggered :
    (runCmdF 20 (.propSet (.lit (.obj 1)) (.idx 2) (.lit (.num 9))) c3St).2
      = .ok ∧
    (runCmdF 20 (.propSet (.lit (.obj 1)) (.idx 2) (.lit (.num 9))) c3St).1.heap
      = [.arr [.num 1, .num 2, .num 9], .proxy 0] ∧
    (runCmdF 20 (.propSet (.lit (.obj 1)) (.idx 2) (.lit (.num 9))) c3St).1.log
      = [1] := by
  decide

/-- A reactive array `[1, 2, 3]` with effect 1 subscribed to `length`
and effect 0 subscribed to index 2. -/
def c4St : St :=
  ⟨[.arr [.num 1, .num 2, .num 3], .proxy 0], [],
   [(0, [(.len, [1]), (.idx 2, [0])])],
   [⟨true, .cmds []⟩, ⟨true, .cmds []⟩], [], none, []⟩

/-- C4 evaluated at the failing input: `pop()` on the reactive `[1,2,3]`
notifies the `length` subscriber (effect 1) but then *also* invokes the
subscriber registered on index 2 (effect 0): the partial-index start is
`target.length` read *after* the pop, i.e. the pre-mutation length minus
one - exactly the removed index - not the pre-mutation length the claim
(and the code's own comment) describe, so the index subscriber of the
removed last slot fires. -/
theorem c4_pop_notifies_last_index :
    (runCmdF 20 (.pop (.lit (.obj 1))) c4St).2 = .ok ∧
    (runCmdF 20 (.pop (.lit (.obj 1))) c4St).1.heap
      = [.arr [.num 1, .num 2], .proxy 0] ∧
    (runCmdF 20 (.pop (.lit (.obj 1))) c4St).1.log = [1, 0] := by
  decide

/-- A cell (ref 0) holding the reactive `[1, 2, 3, 4]`, a computed-style
effect 0 depending only on index 0 (storing into ref 1) and a
computed-style effect 1 depending only on index 2 (storing into ref 2),
before their creation runs. -/
def c5St : St :=
  ⟨[.arr [.num 1, .num 2, .num 3, .num 4], .proxy 0],
   [⟨.obj 0, .obj 1, []⟩, ⟨.null, .null, []⟩, ⟨.null, .null, []⟩], [],
   [⟨true, .cmds [.refSet 1 (.idxGet (.refGet 0) 0)]⟩,
    ⟨true, .cmds [.refSet 2 (.idxGet (.refGet 0) 2)]⟩], [], none, []⟩

/-- The world after both computed effects ran once at creation. -/
def c5Setup : St := (runEffectF 30 1 (runEffectF 30 0 c5St).1).1

/-- The world after `arr.value.splice(2, 1)` from top level. -/
def c5After : St × Outcome := runCmdF 30 (.splice (.refGet 0) 2 1) c5Setup

/-- C5: after the setup runs (log `[0, 1]`, index 0 tracked by effect 0
and index 2 by effect 1), `splice(2, 1)` re-invokes only the subscriber
on index 2 (log becomes `[0, 1, 1]`: effect 1 re-ran, effect 0 did not):
the partial-index start is the explicit splice-start argument 2, index 0
is below it, index 2 is `>=` it.  The index-2 computed recomputes to the
new element 4 while the index-0 computed keeps its value 1. -/
theorem c5_splice_minimal_notification :
    c5Setup.log = [0, 1] ∧
    c5Setup.targetMap = [(0, [(.idx 0, [0]), (.idx 2, [1])])] ∧
    c5After.2 = .ok ∧
    c5After.1.log = [0, 1, 1] ∧
    c5After.1.heap = [.arr [.num 1, .num 2, .num 4], .proxy 0] ∧
    c5After.1.refs.get? 1 = some ⟨.num 1, .num 1, []⟩ ∧
    c5After.1.refs.get? 2 = some ⟨.num 4, .num 4, []⟩ := by
  decide

/-- A cell holding the primitive 5 with one subscriber (effect 0). -/
def c6St : St :=
  ⟨[], [⟨.num 5, .num 5, [0]⟩], [], [⟨true, .cmds []⟩], [], none, []⟩

/-- C6: writing to a ref a value identical to the stored raw value is a
complete no-op - the returned world is the input world itself (so no
subscriber ran, nothing was re-wrapped, and both the stored raw value
and the stored wrapped value are unchanged). -/
theorem c6_equal_write_noop (n r : Nat) (v : Val) (s : St) (rs : RefSt)
    (hg : s.refs.get? r = some rs) (hv : rs.rawValue = v) :
    refSetF n r v s = (s, .ok) := by
  rw [refSetF, hg]
  simp [hv]

/-- C6 witness: a cell holding the primitive 5 with a subscriber;
writing 5 again returns the world unchanged - zero invocations. -/
theorem c6_equal_write_noop_w : refSetF 1 0 (.num 5) c6St = (c6St, .ok) :=
  c6_equal_write_noop 1 0 (.num 5) c6St ⟨.num 5, .num 5, [0]⟩ rfl rfl

/-- A cell holding 1 with no watcher yet. -/
def c7S0 : St := ⟨[], [⟨.num 1, .num 1, []⟩], [], [], [], none, []⟩

/-- After `watch(cell, cb)` (default options): the creation run. -/
def c7S1 : St := (mkWatchF 20 0 false c7S0).2.1

/-- After calling the disposer once. -/
def c7S2 : St := disposeF 0 c7S1

/-- After writing 2 to the disposed-watcher's source. -/
def c7S3 : St × Outcome := refSetF 20 0 (.num 2) c7S2

/-- After calling the disposer a second time. -/
def c7S4 : St := disposeF 0 c7S3.1

/-- After writing 3. -/
def c7S5 : St × Outcome := refSetF 20 0 (.num 3) c7S4

/-- C7: a deactivated effect runner is a complete no-op when invoked
(the general conjunct), and in the watch scenario: after disposing once
or twice, writes to the source update the cell but the callback list
stays empty and the watcher body never re-executes (the execution log
keeps only the creation run), while reading the cell still returns the
current value. -/
theorem c7_dispose_stops_watcher :
    (∀ (n e : Nat) (s : St) (eff : Eff), s.effects.get? e = some eff →
        eff.active = false → runEffectF n e s = (s, .ok)) ∧
    (c7S1.watchers.get? 0 = some ⟨.num 1, false, false, []⟩ ∧
     c7S3.2 = .ok ∧
     c7S3.1.watchers.get? 0 = some ⟨.num 1, false, false, []⟩ ∧
     c7S3.1.log = [0] ∧
     (refGetF 0 c7S3.1).1 = .num 2 ∧
     c7S5.2 = .ok ∧
     c7S5.1.watchers.get? 0 = some ⟨.num 1, false, false, []⟩ ∧
     c7S5.1.log = [0] ∧
     (refGetF 0 c7S5.1).1 = .num 3) := by
  refine ⟨?_, by decide⟩
  intro n e s eff hg ha
  rw [runEffectF, hg]
  simp [ha]

/-- C7 witness: invoking the disposed watcher runner at a concrete input
leaves the world untouched. -/
theorem c7_dispose_stops_watcher_w : runEffectF 7 0 c7S2 = (c7S2, .ok) :=
  c7_dispose_stops_watcher.1 7 0 c7S2 ⟨false, .watcher 0 0⟩ rfl rfl

/-- A cell holding 1, for the default-options watch. -/
def c8S0 : St := ⟨[], [⟨.num 1, .num 1, []⟩], [], [], [], none, []⟩

/-- After `watch(cell, cb)` with default options. -/
def c8S1 : St := (mkWatchF 20 0 false c8S0).2.1

/-- After the first change `cell.value = 2`. -/
def c8S2 : St × Outcome := refSetF 20 0 (.num 2) c8S1

/-- A cell holding 0, for the immediate watch. -/
def c8I0 : St := ⟨[], [⟨.num 0, .num 0, []⟩], [], [], [], none, []⟩

/-- After `watch(cell, cb, { immediate: true })`. -/
def c8I1 : St × Outcome := (mkWatchF 20 0 true c8I0).2

/-- C8: with default options the creation run invokes no callback (the
calls list is empty and `oldValue` is seeded with 1); after the change
from 1 to 2 the callback has been invoked exactly once, with new value 2
and old value 1.  With `immediate: true` the callback is invoked exactly
once during creation, with the current value 0 and `undefined`. -/
theorem c8_watch_lazy_and_immediate :
    (mkWatchF 20 0 false c8S0).2.2 = .ok ∧
    c8S1.watchers.get? 0 = some ⟨.num 1, false, false, []⟩ ∧
    c8S2.2 = .ok ∧
    c8S2.1.watchers.get? 0 = some ⟨.num 2, false, false, [(.num 2, .num 1)]⟩ ∧
    c8I1.2 = .ok ∧
    c8I1.1.watchers.get? 0 = some ⟨.num 0, false, true, [(.num 0, .undefined)]⟩ := by
  decide

/-- C9: wrapping is referentially idempotent: whatever `reactive`
returns, feeding that result back into `reactive` returns the very same
value with the heap completely unchanged - no second proxy layer is ever
allocated.  (For a wrappable input the result is a proxy, and the
`__v_isReactive` probe short-circuits the second call; non-wrappable
inputs are returned unchanged by both calls.) -/
theorem c9_reactive_idempotent (n m : Nat) (x y : Val) (h h2 : Heap)
    (hw : reactiveF n x h = some (y, h2)) :
    reactiveF (m + 1) y h2 = some (y, h2) := by
  cases n with
  | zero => simp [reactiveF] at hw
  | succ k =>
    cases x with
    | undefined =>
      simp only [reactiveF, Option.some.injEq, Prod.mk.injEq] at hw
      obtain ⟨hy, hh2⟩ := hw
      subst hy; subst hh2
      simp [reactiveF]
    | null =>
      simp only [reactiveF, Option.some.injEq, Prod.mk.injEq] at hw
      obtain ⟨hy, hh2⟩ := hw
      subst hy; subst hh2
      simp [reactiveF]
    | num v =>
      simp only [reactiveF, Option.some.injEq, Prod.mk.injEq] at hw
      obtain ⟨hy, hh2⟩ := hw
      subst hy; subst hh2
      simp [reactiveF]
    | obj o =>
      simp only [reactiveF] at hw
      rw [List.get?_eq_getElem?] at hw
      split at hw
      next t heq =>
        simp only [Option.some.injEq, Prod.mk.injEq] at hw
        obtain ⟨hy, hh2⟩ := hw
        subst hy; subst hh2
        rw [reactiveF]
        simp [heq]
      next fs heq =>
        split at hw
        next => exact absurd hw (by simp)
        next fs2 h1 heq2 =>
          simp only [Option.some.injEq, Prod.mk.injEq] at hw
          obtain ⟨hy, hh2⟩ := hw
          subst hy; subst hh2
          rw [reactiveF]
          simp [List.getElem?_concat_length]
      next es heq =>
        split at hw
        next => exact absurd hw (by simp)
        next es2 h1 heq2 =>
          simp only [Option.some.injEq, Prod.mk.injEq] at hw
          obtain ⟨hy, hh2⟩ := hw
          subst hy; subst hh2
          rw [reactiveF]
          simp [List.getElem?_concat_length]
      next heq =>
        simp only [Option.some.injEq, Prod.mk.injEq] at hw
        obtain ⟨hy, hh2⟩ := hw
        subst hy; subst hh2
        rw [reactiveF]
        simp [heq]

/-- C9 witness: wrapping the plain object 0 yields the proxy 1;
re-wrapping that proxy returns it unchanged on the unchanged heap. -/
theorem c9_reactive_idempotent_w :
    reactiveF 5 (.obj 1) [.plain [], .proxy 0]
      = some (.obj 1, [.plain [], .proxy 0]) :=
  c9_reactive_idempotent 1 4 (.obj 0) (.obj 1) [.plain []]
    [.plain [], .proxy 0] (by decide)

/-- A world with the raw plain object 0 and an effect that subscribes to
ref 0 by reading it. -/
def c10S0 : St :=
  ⟨[.plain []], [], [], [⟨true, .cmds [.eread (.refGet 0)]⟩], [], none, []⟩

/-- After `ref(o)` over the raw object 0 (the stored value is the fresh
proxy, object 1). -/
def c10S1 : St := ((mkRefF 5 (.obj 0) c10S0).getD (0, c10S0)).2

/-- After effect 0 subscribed by reading the ref. -/
def c10S2 : St := (runEffectF 10 0 c10S1).1

/-- After assigning the wrapped view (object 1, what the getter returns)
back into the ref. -/
def c10W : St × Outcome := refSetF 10 0 (.obj 1) c10S2

/-- C10: the ref's equal-write short-circuit compares against the stored
raw value.  The ref over the raw object 0 stores raw `obj 0` and wrapped
`obj 1`; assigning `obj 0` again is a complete no-op (the world is
returned unchanged, zero notifications), while assigning the wrapped
view `obj 1` read back from the getter is a genuine change: the raw
value becomes `obj 1`, re-wrapping returns the proxy itself, and every
subscriber is invoked (the log gains effect 0's re-run). -/
theorem c10_ref_short_circuit_on_raw :
    c10S2.refs.get? 0 = some ⟨.obj 0, .obj 1, [0]⟩ ∧
    refSetF 10 0 (.obj 0) c10S2 = (c10S2, .ok) ∧
    c10W.2 = .ok ∧
    c10W.1.refs.get? 0 = some ⟨.obj 1, .obj 1, [0]⟩ ∧
    c10W.1.log = [0, 0] := by
  decide
